import Mathlib

/-!
Verification of the Docker orchestration engine of version-control-tools
(`testing/vcttesting/docker.py`) against its natural-language specification.

The Python code is shallowly embedded: each relevant function is translated
into an executable Lean definition over explicit state.  External effects
(the Docker daemon API, hashing, downloads, the filesystem) are modelled as
explicit parameters or event lists, so that each definition is a faithful,
executable transcription of the control flow of the source function.
-/

namespace VCT

/-! ## String helpers (kernel-reducible models of the Python string methods) -/

/-- Python `s.startswith(pre)`. -/
def pyStartsWith (s pre : String) : Bool :=
  pre.toList.isPrefixOf s.toList

/-- Python `s.endswith(suf)`. -/
def pyEndsWith (s suf : String) : Bool :=
  suf.toList.isSuffixOf s.toList

/-- Split a character list at the first colon, when one is present. -/
def splitAtColon : List Char → List Char × Option (List Char)
  | [] => ([], none)
  | c :: cs =>
      if c = ':' then ([], some cs)
      else
        let (a, b) := splitAtColon cs
        (c :: a, b)

/-! ## Image and history records (entries of the Docker API's JSON answers) -/

/-- One entry of `api_client.images()`: the fields `docker.py` reads. -/
structure DImage where
  Id : String
  RepoTags : List String
  Created : Int
deriving DecidableEq, Repr

/-- One entry of `api_client.history(image)`: the fields `run_ansible` reads. -/
structure HistEntry where
  Id : String
  CreatedBy : String
deriving DecidableEq, Repr

/-- Python `repotag.split(':')` unpacked into (repository, tag): split at the
first colon (the code's repo tags hold exactly one colon). -/
def splitRepoTag (s : String) : String × String :=
  match splitAtColon s.toList with
  | (r, none) => (r.asString, "")
  | (r, some t) => (r.asString, t.asString)

/-! ## `run_ansible`: history-depth rebase (docker.py lines 720-726)

```python
history = self.api_client.history(start_image)
if len(history) > 120:
    # Newest to oldest.
    for base in history:
        if base['CreatedBy'].startswith('/sync-and-build'):
            start_image = base['Id']
```
The loop has no `break`: each matching entry overwrites `start_image`, so the
last match in the newest-to-oldest list wins. -/

def rebase_start_image (start_image : String) (history : List HistEntry) : String :=
  if history.length > 120 then
    history.foldl
      (fun si base => if pyStartsWith base.CreatedBy "/sync-and-build" then base.Id else si)
      start_image
  else start_image

/-- The spec's reading of the rebase step, for comparison: pick the *most
recent* (scanning newest-first, the first) matching ancestry entry. -/
def rebase_start_image_spec_reading (start_image : String) (history : List HistEntry) : String :=
  if history.length > 120 then
    match history.find? (fun base => pyStartsWith base.CreatedBy "/sync-and-build") with
    | some base => base.Id
    | none => start_image
  else start_image

/-- A 121-deep history whose newest matching entry (`new`) differs from its
oldest matching entry (`old`). -/
def deepHistory : List HistEntry :=
  ⟨"new", "/sync-and-build docker-hgweb.yml"⟩ ::
    (List.replicate 119 ⟨"mid", "RUN yum install"⟩ ++
      [⟨"old", "/sync-and-build docker-hgmaster.yml"⟩])

/-! ## `run_ansible`: argument validation (docker.py lines 698-703)

The validation runs first in the function body, before the builder build,
the history lookup, and all container operations.  We record the Docker
operations the function performs as an explicit trace. -/

/-- Operations `run_ansible` performs against the Docker daemon, in order. -/
inductive RAOp where
  | ensureBuilt (name : String)
  | historyLookup (image : String)
  | containerOps
deriving DecidableEq, Repr

/-- Result of the modelled fragment of `run_ansible`. -/
inductive RAResult where
  | invalidArgument (msg : String)
  | started (effectiveStart : String)
deriving DecidableEq, Repr

/-- `run_ansible` up to the point where the provisioning container is
created: validation of `builder`/`start_image`, resolution of the builder
image (`ensure_built`, abstracted as `ensureBuiltResult`), and the
history-depth rebase.  The trace lists the Docker operations performed. -/
def run_ansible (ensureBuiltResult : String → String)
    (historyOf : String → List HistEntry)
    (builder start_image : Option String) : RAResult × List RAOp :=
  match builder, start_image with
  | none, none =>
      (.invalidArgument "At least 1 of builder or start_image must be defined", [])
  | some _, some _ =>
      (.invalidArgument "Only 1 of builder and start_image may be defined", [])
  | some b, none =>
      let si := ensureBuiltResult ("ansible-" ++ b)
      let si2 := rebase_start_image si (historyOf si)
      (.started si2, [.ensureBuilt ("ansible-" ++ b), .historyLookup si, .containerOps])
  | none, some si =>
      let si2 := rebase_start_image si (historyOf si)
      (.started si2, [.historyLookup si, .containerOps])

/-! ## `docker_rollback_on_error` (docker.py lines 109-144)

The context manager swaps the client's class for a proxy that records the
ids of created containers and networks; on an exception it removes the
recorded resources (containers first, then networks) and re-raises; the
`finally` clause restores the client's original class on every path.

The scope body is modelled as the list of creation events it performs,
plus its outcome (`none` = normal return, `some msg` = an exception with
that message escaped).  A removal call either succeeds or itself raises,
as given by the `removeContainerOk`/`removeNetworkOk` oracles. -/

/-- A creation event performed on the proxied client inside the scope. -/
inductive ScopeEvent where
  | createContainer (id : String)
  | createNetwork (id : String)
deriving DecidableEq, Repr

/-- The client's class: the original one, or the tracking proxy installed
by `docker_rollback_on_error`. -/
inductive ClientClass where
  | base
  | proxied
deriving DecidableEq, Repr

/-- The two tracking sets `created_containers` / `created_networks`. -/
structure TrackSets where
  containers : List String
  networks : List String
deriving DecidableEq, Repr

/-- Python `set.add` (sets modelled as insertion-ordered duplicate-free
lists). -/
def addOnce (x : String) (xs : List String) : List String :=
  if x ∈ xs then xs else xs ++ [x]

/-- `create_container` as dispatched through the client's current class:
the proxy records the created id, the original class records nothing. -/
def create_container (cls : ClientClass) (ts : TrackSets) (id : String) : TrackSets :=
  match cls with
  | .proxied => { ts with containers := addOnce id ts.containers }
  | .base => ts

/-- `create_network` as dispatched through the client's current class. -/
def create_network (cls : ClientClass) (ts : TrackSets) (id : String) : TrackSets :=
  match cls with
  | .proxied => { ts with networks := addOnce id ts.networks }
  | .base => ts

/-- Run the scope body: every creation event goes through the proxy class. -/
def runBody (events : List ScopeEvent) : TrackSets :=
  events.foldl
    (fun ts e =>
      match e with
      | .createContainer i => create_container .proxied ts i
      | .createNetwork i => create_network .proxied ts i)
    ⟨[], []⟩

/-- Exceptions that can escape the context manager. -/
inductive Exc where
  | orig (msg : String)
  | removeContainerFailed (id : String)
  | removeNetworkFailed (id : String)
deriving DecidableEq, Repr

/-- The cleanup loop `for cid in created: client.remove_*(cid)`: removals
run in turn; a failing removal raises, aborting the remaining iterations.
Returns the list of attempted removals and the raised error, if any. -/
def removeAll (ok : String → Bool) (mkErr : String → Exc) :
    List String → List String × Option Exc
  | [] => ([], none)
  | x :: xs =>
      if ok x then
        let r := removeAll ok mkErr xs
        (x :: r.1, r.2)
      else ([x], some (mkErr x))

/-- What the `except Exception:` block does: remove containers, then
networks, then re-raise the original exception — unless a removal itself
raised first. -/
def rollback_cleanup (ts : TrackSets) (msg : String)
    (removeContainerOk removeNetworkOk : String → Bool) :
    List String × List String × Option Exc :=
  match removeAll removeContainerOk Exc.removeContainerFailed ts.containers with
  | (ac, some e) => (ac, [], some e)
  | (ac, none) =>
      match removeAll removeNetworkOk Exc.removeNetworkFailed ts.networks with
      | (an, some e) => (ac, an, some e)
      | (an, none) => (ac, an, some (Exc.orig msg))

/-- Observable result of one `docker_rollback_on_error` scope. -/
structure ScopeResult where
  attemptedContainerRemovals : List String
  attemptedNetworkRemovals : List String
  raised : Option Exc
  finalClass : ClientClass
deriving DecidableEq, Repr

/-- The whole context manager: run the body, on an escaping exception run
the cleanup, and in all cases restore the client's original class
(the `finally` clause). -/
def docker_rollback_on_error (events : List ScopeEvent) (outcome : Option String)
    (removeContainerOk removeNetworkOk : String → Bool) : ScopeResult :=
  match outcome with
  | none => ⟨[], [], none, .base⟩
  | some msg =>
      let c := rollback_cleanup (runBody events) msg removeContainerOk removeNetworkOk
      ⟨c.1, c.2.1, c.2.2, .base⟩

/-! ## `clobber_needed` (docker.py lines 287-321)

`stored` is `self.state['clobber-<name>']` (`none` for a missing key or a
null value), `markerMtime` is `os.path.getmtime` of the clobber file
(`none` when the file does not exist — the ENOENT branch), and `now` is
`int(time.time())` at the moment of the call. -/

/-- `clobber_needed`, returning the answer together with the new stored
value.  Note the update branch stores the *current wall-clock time*
(`int(time.time())`), not the marker's mtime. -/
def clobber_needed (stored : Option Int) (markerMtime : Option Int) (now : Int) :
    Bool × Option Int :=
  match markerMtime with
  | none => (false, stored)
  | some newmtime =>
      match stored with
      | none => (true, some now)
      | some oldmtime =>
          if newmtime > oldmtime then (true, some now) else (false, some oldmtime)

/-! ## `ensure_images_built`: the scheduling loop (docker.py lines 630-660)

The loop walks `sorted(missing)`; roles in `names` get a direct build;
ansible roles resolve their start image / builder (consulting the clobber
check), and builder images are submitted through the `builder_fs` memo so
each distinct builder is submitted at most once.  The submissions made to
the worker pool are recorded as an explicit list. -/

/-- The `(playbook, builder)` value of the `ansibles` mapping. -/
structure AnsibleSpec where
  playbook : String
  builder : String
deriving DecidableEq, Repr

/-- A unit of work submitted to the worker pool by the scheduling loop. -/
inductive Submission where
  | directBuild (name : String)
  | builderBuild (builder : String)
  | ansibleRun (role : String) (builder : Option String) (startImage : Option String)
deriving DecidableEq, Repr

/-- Python string `<` (lexicographic on characters), kernel-reducible. -/
def charListLt : List Char → List Char → Bool
  | [], [] => false
  | [], _ :: _ => true
  | _ :: _, [] => false
  | a :: as, b :: bs => if a < b then true else if b < a then false else charListLt as bs

/-- Python `a < b` on strings. -/
def pyStrLt (a b : String) : Bool := charListLt a.toList b.toList

/-- Insertion step of `sorted()`. -/
def insertSorted (x : String) : List String → List String
  | [] => [x]
  | y :: ys => if pyStrLt y x then y :: insertSorted x ys else x :: y :: ys

/-- Python `sorted()` over a list of strings. -/
def sortStrings (l : List String) : List String := l.foldr insertSorted []

/-- One iteration of `for n in sorted(missing)`: the accumulator carries
(`builder_fs` as the list of builder names already submitted, the
submissions so far). -/
def scheduleRole (names : List String) (ansibles : String → Option AnsibleSpec)
    (startImages : String → Option String) (clobber : String → Bool)
    (acc : List String × List Submission) (n : String) :
    List String × List Submission :=
  if n ∈ names then (acc.1, acc.2 ++ [.directBuild n])
  else
    match ansibles n with
    | none => acc
    | some spec =>
        let sb :=
          match startImages n with
          | some si =>
              if clobber n then ((none : Option String), some spec.builder)
              else (some si, (none : Option String))
          | none => ((none : Option String), some spec.builder)
        match sb.2 with
        | some bq =>
            if bq ∈ acc.1 then
              (acc.1, acc.2 ++ [.ansibleRun n (some bq) sb.1])
            else
              (acc.1 ++ [bq], acc.2 ++ [.builderBuild bq, .ansibleRun n (some bq) sb.1])
        | none => (acc.1, acc.2 ++ [.ansibleRun n none sb.1])

/-- The scheduling loop of `ensure_images_built`: fold `scheduleRole` over
`sorted(missing)` (the missing set, modelled as a deduplicated list); the
result is the list of submissions handed to the worker pool. -/
def ensure_images_built_schedule (missing names : List String)
    (ansibles : String → Option AnsibleSpec) (startImages : String → Option String)
    (clobber : String → Bool) : List Submission :=
  ((sortStrings missing.dedup).foldl
    (scheduleRole names ansibles startImages clobber) ([], [])).2

/-- Number of builder-build submissions for builder `b`. -/
def countBuilderBuilds (b : String) (subs : List Submission) : Nat :=
  subs.countP (fun s => s == Submission.builderBuild b)

/-! ## `import_base_image` (docker.py lines 323-382)

Secure base-image importing: compute the deterministic cache tag, return a
cache hit without network access, otherwise download while hashing, verify
the digest *before* handing anything to the daemon's import pipeline, and
only then import (decompressing `.xz` payloads locally first) and tag. -/

/-- The effectful collaborators of `import_base_image`, abstracted: the
daemon's image list, SHA-256 of a string (for the cache tag) and of a byte
stream (the incremental digester over the downloaded chunks), the HTTP
download, local xz decompression, and the daemon's import-from-data call
(returning the created image's id, the parsed `status` field). -/
structure ImportEnv where
  images : List DImage
  sha256Hex : String → String
  sha256Bytes : List Nat → String
  download : String → List Nat
  lzmaDecompress : List Nat → List Nat
  importImage : List Nat → String → String → String

/-- Result of `import_base_image`. -/
inductive ImportResult where
  | cached (id : String)
  | integrityError (url got expected : String)
  | imported (id : String)
deriving DecidableEq, Repr

/-- Result plus the observable effects: whether the URL was downloaded and
which bytes, if any, were handed to the daemon's import pipeline. -/
structure ImportOutcome where
  result : ImportResult
  downloaded : Bool
  handedToImport : Option (List Nat)
deriving DecidableEq, Repr

/-- Insertion step of `sorted(images, key=Created, reverse=True)`. -/
def insertByCreated (x : DImage) : List DImage → List DImage
  | [] => [x]
  | y :: ys => if y.Created ≤ x.Created then x :: y :: ys else y :: insertByCreated x ys

/-- `_get_sorted_images` (docker.py lines 1209-1211): the daemon's images,
most recently created first. -/
def get_sorted_images (l : List DImage) : List DImage := l.foldr insertByCreated []

/-- Whether one image carries the repo tag `repository:tag`. -/
def imageHasTag (repository tag : String) (img : DImage) : Bool :=
  img.RepoTags.any
    (fun rt => (splitRepoTag rt).1 == repository && (splitRepoTag rt).2 == tag)

/-- The deterministic cache tag: `'%s-%s' % (tagpre, sha256(url + digest))`. -/
def importCacheTag (env : ImportEnv) (tagpre url digest : String) : String :=
  tagpre ++ "-" ++ env.sha256Hex (url ++ digest)

/-- `import_base_image`: cache lookup over the sorted image list, then
download-and-hash, digest verification, optional local xz decompression,
and import-plus-tag. -/
def import_base_image (env : ImportEnv) (repository tagpre url digest : String) :
    ImportOutcome :=
  let tag := importCacheTag env tagpre url digest
  match (get_sorted_images env.images).find? (imageHasTag repository tag) with
  | some img => ⟨.cached img.Id, false, none⟩
  | none =>
      let content := env.download url
      let got := env.sha256Bytes content
      if got ≠ digest then ⟨.integrityError url got digest, true, none⟩
      else
        let payload := if pyEndsWith url ".xz" then env.lzmaDecompress content else content
        ⟨.imported (env.importImage payload repository tag), true, some payload⟩

/-- A concrete `ImportEnv` with no cached images, used to instantiate the
C1 theorem: every download yields bytes `[1, 2]` hashing to `"B"`. -/
def importEnvNoCache : ImportEnv :=
  ⟨[], fun _ => "H", fun _ => "B", fun _ => [1, 2], id, fun _ _ _ => "IID"⟩

/-! ## `prune_images` (docker.py lines 848-907) -/

/-- The fields of the durable state document that `prune_images` consults,
plus the `images` cache (an association list logical-name → image id). -/
structure PruneStore where
  last_hgrb_id : Option String
  last_pulse_id : Option String
  last_rbweb_id : Option String
  last_rbweb_bootstrap_id : Option String
  last_hgmaster_id : Option String
  last_hgweb_id : Option String
  last_ldap_id : Option String
  last_vct_id : Option String
  last_treestatus_id : Option String
  images : List (String × String)
deriving DecidableEq, Repr

/-- The fixed `relevant_repos` set (docker.py lines 864-873). -/
def relevant_repos : List String :=
  ["pulse", "rbweb", "hgmaster", "hgrb", "hgweb", "ldap", "vct", "treestatus"]

/-- The `ignore_images` set built at docker.py lines 853-862: exactly these
eight `last-*-id` fields — `last-rbweb-bootstrap-id` is absent. -/
def ignore_images (st : PruneStore) : List (Option String) :=
  [st.last_hgrb_id, st.last_pulse_id, st.last_rbweb_id, st.last_hgmaster_id,
    st.last_hgweb_id, st.last_ldap_id, st.last_vct_id, st.last_treestatus_id]

/-- The inner `for repotag in repotags: ... break` loop: the first repo tag
whose repository lies in `relevant_repos`. -/
def imageRelevantRepo (img : DImage) : Option String :=
  img.RepoTags.findSome?
    (fun rt =>
      if (splitRepoTag rt).1 ∈ relevant_repos then some (splitRepoTag rt).1 else none)

/-- Python dict assignment `d[k] = v` on an association list. -/
def dictInsert (td : List (String × String)) (k v : String) : List (String × String) :=
  if td.any (fun p => p.1 == k) then
    td.map (fun p => if p.1 == k then (k, v) else p)
  else td ++ [(k, v)]

/-- One iteration of the `for i in self.api_client.images()` loop of
`prune_images`: skip images backing running containers, skip the ignore
set, record relevant-tagged images in `to_delete`. -/
def pruneStep (running : List String) (st : PruneStore)
    (td : List (String × String)) (i : DImage) : List (String × String) :=
  if i.Id ∈ running then td
  else if some i.Id ∈ ignore_images st then td
  else
    match imageRelevantRepo i with
    | some repo => dictInsert td i.Id repo
    | none => td

/-- The `to_delete` dict of `prune_images`: image id → repository.
`running` is the set of full image ids backing currently running
containers (the resolved `running` set of line 850). -/
def prune_to_delete (images : List DImage) (running : List String) (st : PruneStore) :
    List (String × String) :=
  images.foldl (pruneStep running st) []

/-- `prune_images`: the (id, repo) pairs submitted for deletion, and the
resulting store, whose `images` mapping retains only entries whose image id
was not deleted (docker.py lines 896-906). -/
def prune_images (images : List DImage) (running : List String) (st : PruneStore) :
    List (String × String) × PruneStore :=
  let td := prune_to_delete images running st
  (td, { st with images := st.images.filter (fun kv => !td.any (fun p => p.1 == kv.2)) })

/-- A store whose only recorded image is `last-rbweb-bootstrap-id = "I"`. -/
def pruneStoreBootstrapOnly : PruneStore :=
  ⟨none, none, none, some "I", none, none, none, none, none, [("rbweb-bootstrap", "I")]⟩

/-- The empty store: no recorded last ids, empty image cache. -/
def pruneStoreEmpty : PruneStore :=
  ⟨none, none, none, none, none, none, none, none, none, []⟩

/-! ## `save_state` (docker.py lines 909-911)

```python
with open(self._state_path, 'wb') as fh:
    json.dump(self.state, fh, indent=4, sort_keys=True)
```
The file is opened in mode `'wb'`, which truncates it in place, and the
serialized document is then written sequentially to the same path — there
is no write-to-temporary-then-rename.  The crash-observable on-disk
contents are therefore the empty file (right after the truncating open)
followed by every prefix of the new document. -/

/-- The sequence of observable on-disk contents during `save_state`'s
in-place truncate-then-write of the serialized document `newDoc`
(documents as byte lists). -/
def save_state_observables (newDoc : List Nat) : List (List Nat) :=
  (List.range (newDoc.length + 1)).map (fun k => newDoc.take k)

/-! ## `ensure_built`: inclusion directives (docker.py lines 482-505)

```python
added = set()
for p in vct_paths:
    ap = os.path.join(ROOT, p)
    if not os.path.exists(ap):
        raise Exception(...)
    if p.endswith('/'):
        for f in vct_files:
            if not f.startswith(p) and p != '/':
                continue
            full = os.path.join(ROOT, f)
            rel = 'extra/vct/%s' % f
            if full in added:
                continue
            tar.add(full, rel)
    else:
        full = os.path.join(ROOT, p)
        if full in added:
            continue
        rel = 'extra/vct/%s' % p
        tar.add(full, rel)
```
Note that `added` is consulted but never inserted into. -/

/-- `os.path.join(ROOT, p)`, the outer source tree rooted at the symbolic
path `ROOT`. -/
def joinRoot (p : String) : String := "ROOT/" ++ p

/-- The archive entries (absolute path, archive name) added for one
`# %include` path: the subtree branch for a trailing slash, the
single-file branch otherwise.  `added` is the dedup set the code consults
— the source never inserts into it. -/
def inclusionsForPath (vct_files : List String) (added : List String) (p : String) :
    List (String × String) :=
  if pyEndsWith p "/" then
    vct_files.foldl
      (fun acc f =>
        if pyStartsWith f p = false ∧ p ≠ "/" then acc
        else if joinRoot f ∈ added then acc
        else acc ++ [(joinRoot f, "extra/vct/" ++ f)])
      []
  else
    if joinRoot p ∈ added then []
    else [(joinRoot p, "extra/vct/" ++ p)]

/-- The `for p in vct_paths` loop: check existence, then add the resolved
entries.  `added` is threaded through unchanged, mirroring that the source
never adds to it. -/
def resolve_inclusions_go (vct_files : List String) (pathExists : String → Bool)
    (added : List String) : List String → Except String (List (String × String))
  | [] => .ok []
  | p :: ps =>
      if pathExists (joinRoot p) then
        match resolve_inclusions_go vct_files pathExists added ps with
        | .ok rest => .ok (inclusionsForPath vct_files added p ++ rest)
        | .error e => .error e
      else .error ("specified path not under version control: " ++ p)

/-- docker.py lines 482-505: resolve every `# %include` path against the
outer tree (`vct_files` is the sorted list of tracked files, `pathExists`
the filesystem existence check), producing in order the
(absolute path, archive name) pairs added to the context archive. -/
def resolve_inclusions (vct_files : List String) (pathExists : String → Bool)
    (vct_paths : List String) : Except String (List (String × String)) :=
  resolve_inclusions_go vct_files pathExists [] vct_paths

/-! ## Helper lemmas about the rebase fold -/

/-- The no-`break` fold returns the last matching entry, i.e. the first
match of the reversed (oldest-first) list. -/
theorem foldl_pick_last (p : HistEntry → Bool) (s : String) (l : List HistEntry) :
    l.foldl (fun si base => if p base then base.Id else si) s =
      (match l.reverse.find? p with
       | some base => base.Id
       | none => s) := by
  induction l generalizing s with
  | nil => rfl
  | cons x xs ih =>
      show xs.foldl _ (if p x then x.Id else s) = _
      rw [ih]
      have hrev : (x :: xs).reverse = xs.reverse ++ [x] := by simp
      rw [hrev, List.find?_append]
      cases hfind : xs.reverse.find? p with
      | some b => simp [Option.orElse]
      | none =>
          cases hpx : p x <;> simp [Option.orElse, List.find?, hpx]

set_option maxRecDepth 10000

/-- C2: the claim says `run_ansible` rebases a >120-deep start image onto the
*most recent* ancestry entry whose creating command matches `/sync-and-build`.
On a concrete 121-deep history with a newer match (`new`) and an older match
(`old`), the code rebases onto `old`, not onto the most recent match: the
loop in docker.py lines 722-726 has no `break`, so the last (oldest) match
wins. -/
theorem c2_counterexample :
    rebase_start_image "s" deepHistory = "old" ∧
    rebase_start_image_spec_reading "s" deepHistory = "new" ∧
    rebase_start_image "s" deepHistory ≠ rebase_start_image_spec_reading "s" deepHistory :=
  ⟨by decide, by decide, by decide⟩

/-- C2 (amended): for every start image whose image-history depth exceeds 120
layers, `run_ansible` rebases onto the *oldest* image in the ancestry whose
creating command matches the provisioning entry point `/sync-and-build` (the
last match when scanning newest-first, i.e. the first match of the reversed,
oldest-first, ancestry); if no entry matches, the start image is unchanged,
and a history of depth at most 120 never triggers a rebase. -/
theorem c2_rebase_picks_oldest_match (s : String) (history : List HistEntry) :
    rebase_start_image s history =
      if history.length > 120 then
        (match history.reverse.find?
            (fun base => pyStartsWith base.CreatedBy "/sync-and-build") with
         | some base => base.Id
         | none => s)
      else s := by
  unfold rebase_start_image
  split
  · exact foldl_pick_last _ s history
  · rfl

/-- C9: `run_ansible` raises an invalid-argument error exactly when not
exactly one of `builder`/`start_image` is supplied (both or neither, i.e.
when their presence coincides), and in that case its operation trace is
empty: the error precedes every container and image operation. -/
theorem c9_run_ansible_validation (ebr : String → String)
    (hist : String → List HistEntry) (builder start_image : Option String) :
    ((∃ msg, (run_ansible ebr hist builder start_image).1 = .invalidArgument msg) ↔
      builder.isSome = start_image.isSome) ∧
    (∀ msg, (run_ansible ebr hist builder start_image).1 = .invalidArgument msg →
      (run_ansible ebr hist builder start_image).2 = []) := by
  cases builder <;> cases start_image <;> simp [run_ansible]

/-- Witness for C9 at a concrete input: supplying both arguments yields an
empty operation trace. -/
theorem c9_run_ansible_validation_witness :
    (run_ansible (fun _ => "img") (fun _ => []) (some "centos7") (some "base")).2 = [] :=
  (c9_run_ansible_validation (fun _ => "img") (fun _ => [])
      (some "centos7") (some "base")).2
    "Only 1 of builder and start_image may be defined" rfl

/-- When every removal succeeds, the cleanup loop attempts exactly the whole
list and raises nothing. -/
theorem removeAll_all_ok (ok : String → Bool) (mk : String → Exc) (xs : List String)
    (h : ∀ x ∈ xs, ok x = true) : removeAll ok mk xs = (xs, none) := by
  induction xs with
  | nil => rfl
  | cons x xs ih =>
      have hx : ok x = true := h x (by simp)
      simp [removeAll, hx, ih (fun y hy => h y (by simp [hy]))]

/-- C3: the claim says every tracked container *and network* has its removal
attempted even if some removals fail, and that the original exception always
re-raises.  Concretely: the scope creates container `c1` and network `n1`,
then raises `boom`; removing `c1` itself fails.  Then no network removal is
ever attempted (`n1` was created but its removal list is empty) and the
removal error — not the original `boom` — propagates. -/
theorem c3_counterexample :
    (docker_rollback_on_error [.createContainer "c1", .createNetwork "n1"]
        (some "boom") (fun _ => false) (fun _ => true)).attemptedNetworkRemovals = [] ∧
    (runBody [.createContainer "c1", .createNetwork "n1"]).networks = ["n1"] ∧
    (docker_rollback_on_error [.createContainer "c1", .createNetwork "n1"]
        (some "boom") (fun _ => false) (fun _ => true)).raised =
      some (.removeContainerFailed "c1") ∧
    some (Exc.removeContainerFailed "c1") ≠ some (Exc.orig "boom") :=
  ⟨rfl, rfl, rfl, by decide⟩

/-- C3 (amended): on an exception escaping the scope, removal is attempted
for the created containers first, then the created networks; *when every
removal succeeds*, every container and network created during the scope is
removed and the original exception is re-raised unchanged.  A removal that
itself raises aborts the remaining cleanup and its error propagates in place
of the original.  On a scope that exits without exception, nothing is
removed. -/
theorem c3_rollback_on_error (events : List ScopeEvent) (msg : String)
    (rcOk rnOk : String → Bool)
    (hc : ∀ c ∈ (runBody events).containers, rcOk c = true)
    (hn : ∀ n ∈ (runBody events).networks, rnOk n = true) :
    docker_rollback_on_error events (some msg) rcOk rnOk =
      ⟨(runBody events).containers, (runBody events).networks,
        some (.orig msg), .base⟩ ∧
    docker_rollback_on_error events none rcOk rnOk = ⟨[], [], none, .base⟩ := by
  constructor
  · simp only [docker_rollback_on_error, rollback_cleanup,
      removeAll_all_ok _ _ _ hc, removeAll_all_ok _ _ _ hn]
  · rfl

/-- Witness for C3 at a concrete input: a scope creating `a` and `b` whose
removals all succeed removes both and re-raises the original exception. -/
theorem c3_rollback_on_error_witness :
    docker_rollback_on_error [.createContainer "a", .createNetwork "b"]
        (some "x") (fun _ => true) (fun _ => true) =
      ⟨["a"], ["b"], some (.orig "x"), .base⟩ :=
  (c3_rollback_on_error [.createContainer "a", .createNetwork "b"] "x"
      (fun _ => true) (fun _ => true) (by decide) (by decide)).1

/-- C10: on every exit of `docker_rollback_on_error` — normal or
exceptional, whatever the removal outcomes — the client's class is restored
to its pre-entry value (`base`), and creation calls dispatched through that
restored class are not tracked: they leave the tracking sets unchanged. -/
theorem c10_class_restored (events : List ScopeEvent) (outcome : Option String)
    (rcOk rnOk : String → Bool) (ts : TrackSets) (id : String) :
    (docker_rollback_on_error events outcome rcOk rnOk).finalClass = .base ∧
    create_container (docker_rollback_on_error events outcome rcOk rnOk).finalClass ts id = ts ∧
    create_network (docker_rollback_on_error events outcome rcOk rnOk).finalClass ts id = ts := by
  cases outcome <;> exact ⟨rfl, rfl, rfl⟩

/-- C4: the claim says the value stored when `clobber_needed` answers True
is the marker file's modification time, and that a strictly increasing
marker mtime between two calls forces a rebuild on the second call.  Both
fail concretely: with no stored timestamp, a marker of mtime 10 observed at
wall-clock time 100 answers True but stores 100 (the wall clock), not 10;
when the marker's mtime then increases to 20, the second call (at wall
clock 101) answers False. -/
theorem c4_counterexample :
    clobber_needed none (some 10) 100 = (true, some 100) ∧
    some (100 : Int) ≠ some (10 : Int) ∧
    (10 : Int) < 20 ∧
    (clobber_needed (clobber_needed none (some 10) 100).2 (some 20) 101).1 = false := by
  decide

/-- C4 (amended): when the marker file exists, `clobber_needed` answers True
exactly when no timestamp was previously stored or the marker's mtime is
greater than the stored timestamp; whenever it answers True the stored
value becomes the *current wall-clock time of the check* (not the marker's
mtime), it is left unchanged on False, a missing marker never clobbers, and
consequently after a first observation at wall-clock time `now` a second
call forces a rebuild exactly when the new marker mtime exceeds `now`. -/
theorem c4_clobber_needed (stored : Option Int) (mt now : Int) :
    ((clobber_needed stored (some mt) now).1 = true ↔
      stored = none ∨ ∃ old, stored = some old ∧ old < mt) ∧
    ((clobber_needed stored (some mt) now).1 = true →
      (clobber_needed stored (some mt) now).2 = some now) ∧
    ((clobber_needed stored (some mt) now).1 = false →
      (clobber_needed stored (some mt) now).2 = stored) ∧
    clobber_needed stored none now = (false, stored) ∧
    (∀ mt2 now2,
      ((clobber_needed (clobber_needed none (some mt) now).2 (some mt2) now2).1 = true ↔
        now < mt2)) := by
  have hlast : ∀ mt2 now2,
      ((clobber_needed (clobber_needed none (some mt) now).2 (some mt2) now2).1 = true ↔
        now < mt2) := by
    intro mt2 now2
    by_cases h2 : mt2 > now <;> simp [clobber_needed, h2]
  refine ⟨?_, ?_, ?_, ?_, hlast⟩ <;>
    cases stored with
    | none => simp [clobber_needed]
    | some old => by_cases h : mt > old <;> simp [clobber_needed, h]

/-- Witness for C4 at a concrete input: a first observation stores the
wall-clock time. -/
theorem c4_clobber_needed_witness :
    (clobber_needed none (some 5) 50).2 = some 50 :=
  (c4_clobber_needed none 5 50).2.1 rfl

/-! ### C5: builder memoization lemmas -/

theorem countBB_append (b : String) (l1 l2 : List Submission) :
    countBuilderBuilds b (l1 ++ l2) = countBuilderBuilds b l1 + countBuilderBuilds b l2 := by
  simp [countBuilderBuilds, List.countP_append]

theorem countBB_directBuild (b n : String) :
    countBuilderBuilds b [Submission.directBuild n] = 0 := by
  simp [countBuilderBuilds, List.countP_cons]

theorem countBB_ansibleRun (b r : String) (bo so : Option String) :
    countBuilderBuilds b [Submission.ansibleRun r bo so] = 0 := by
  simp [countBuilderBuilds, List.countP_cons]

theorem countBB_builderAnsible (b bq r : String) (so : Option String) :
    countBuilderBuilds b [Submission.builderBuild bq, Submission.ansibleRun r (some bq) so] =
      if bq = b then 1 else 0 := by
  by_cases h : bq = b <;> simp [countBuilderBuilds, List.countP_cons, h]

/-- One loop iteration preserves the memo invariant: builder `b` has been
submitted exactly once iff it is in `builder_fs`. -/
theorem scheduleRole_memo (names : List String) (ansibles : String → Option AnsibleSpec)
    (startImages : String → Option String) (clobber : String → Bool)
    (b n : String) (acc : List String × List Submission)
    (h : countBuilderBuilds b acc.2 = if b ∈ acc.1 then 1 else 0) :
    countBuilderBuilds b (scheduleRole names ansibles startImages clobber acc n).2 =
      if b ∈ (scheduleRole names ansibles startImages clobber acc n).1 then 1 else 0 := by
  by_cases hn : n ∈ names
  · simp only [scheduleRole, if_pos hn]
    rw [countBB_append, countBB_directBuild, Nat.add_zero, h]
  · cases hA : ansibles n with
    | none => simpa [scheduleRole, hn, hA] using h
    | some spec =>
        have hbq : ∀ so : Option String,
            countBuilderBuilds b
              (if spec.builder ∈ acc.1 then
                  (acc.1, acc.2 ++ [.ansibleRun n (some spec.builder) so])
                else
                  (acc.1 ++ [spec.builder],
                    acc.2 ++ [.builderBuild spec.builder,
                      .ansibleRun n (some spec.builder) so])).2 =
              if b ∈ (if spec.builder ∈ acc.1 then
                  (acc.1, acc.2 ++ [.ansibleRun n (some spec.builder) so])
                else
                  (acc.1 ++ [spec.builder],
                    acc.2 ++ [.builderBuild spec.builder,
                      .ansibleRun n (some spec.builder) so])).1 then 1 else 0 := by
          intro so
          by_cases hmem : spec.builder ∈ acc.1
          · simp only [if_pos hmem]
            rw [countBB_append, countBB_ansibleRun, Nat.add_zero, h]
          · simp only [if_neg hmem]
            rw [countBB_append, countBB_builderAnsible, h]
            by_cases hbb : spec.builder = b
            · subst hbb
              simp [hmem]
            · rw [if_neg hbb, Nat.add_zero]
              have hb2 : ¬ b = spec.builder := fun hh => hbb hh.symm
              simp [List.mem_append, hb2]
        cases hS : startImages n with
        | none =>
            simpa only [scheduleRole, if_neg hn, hA, hS] using hbq none
        | some si =>
            by_cases hc : clobber n
            · simpa only [scheduleRole, if_neg hn, hA, hS, hc, if_pos] using hbq none
            · simp only [scheduleRole, if_neg hn, hA, hS, hc, if_neg, Bool.false_eq_true,
                not_false_eq_true]
              rw [countBB_append, countBB_ansibleRun, Nat.add_zero, h]

/-- The fold over the whole missing set preserves the memo invariant. -/
theorem schedule_fold_memo (names : List String) (ansibles : String → Option AnsibleSpec)
    (startImages : String → Option String) (clobber : String → Bool)
    (b : String) (l : List String) (acc : List String × List Submission)
    (h : countBuilderBuilds b acc.2 = if b ∈ acc.1 then 1 else 0) :
    countBuilderBuilds b
        (l.foldl (scheduleRole names ansibles startImages clobber) acc).2 =
      if b ∈ (l.foldl (scheduleRole names ansibles startImages clobber) acc).1
      then 1 else 0 := by
  induction l generalizing acc with
  | nil => simpa using h
  | cons x xs ih =>
      exact ih _ (scheduleRole_memo names ansibles startImages clobber b x acc h)

/-- C5: during one `ensure_images_built` call, each shared builder role is
submitted for building at most once, however many provisioned roles in the
missing set reference it (the `builder_fs` memo, keyed by builder role
name). -/
theorem c5_builder_built_at_most_once (missing names : List String)
    (ansibles : String → Option AnsibleSpec) (startImages : String → Option String)
    (clobber : String → Bool) (b : String) :
    countBuilderBuilds b
        (ensure_images_built_schedule missing names ansibles startImages clobber) ≤ 1 := by
  unfold ensure_images_built_schedule
  rw [schedule_fold_memo names ansibles startImages clobber b _ ([], [])
    (by simp [countBuilderBuilds])]
  split <;> omega

/-- Witness for C5 at a concrete input: two provisioned roles sharing the
builder `centos7` lead to at most one (here: exactly one) builder build. -/
theorem c5_builder_built_at_most_once_witness :
    countBuilderBuilds "centos7"
        (ensure_images_built_schedule ["hgmaster", "hgweb"] []
          (fun n =>
            if n = "hgmaster" then some ⟨"docker-hgmaster", "centos7"⟩
            else if n = "hgweb" then some ⟨"docker-hgweb", "centos7"⟩
            else none)
          (fun _ => none) (fun _ => false)) ≤ 1 ∧
    countBuilderBuilds "centos7"
        (ensure_images_built_schedule ["hgmaster", "hgweb"] []
          (fun n =>
            if n = "hgmaster" then some ⟨"docker-hgmaster", "centos7"⟩
            else if n = "hgweb" then some ⟨"docker-hgweb", "centos7"⟩
            else none)
          (fun _ => none) (fun _ => false)) = 1 :=
  ⟨c5_builder_built_at_most_once ["hgmaster", "hgweb"] []
      (fun n =>
        if n = "hgmaster" then some ⟨"docker-hgmaster", "centos7"⟩
        else if n = "hgweb" then some ⟨"docker-hgweb", "centos7"⟩
        else none)
      (fun _ => none) (fun _ => false) "centos7",
    by decide⟩

/-! ### C1: secure import lemmas -/

theorem mem_insertByCreated (a x : DImage) (l : List DImage) :
    a ∈ insertByCreated x l ↔ a = x ∨ a ∈ l := by
  induction l with
  | nil => simp [insertByCreated]
  | cons y ys ih =>
      by_cases h : y.Created ≤ x.Created <;> simp [insertByCreated, h, ih] <;> tauto

theorem mem_get_sorted_images (a : DImage) (l : List DImage) :
    a ∈ get_sorted_images l ↔ a ∈ l := by
  induction l with
  | nil => simp [get_sorted_images]
  | cons x xs ih =>
      simp [get_sorted_images, mem_insertByCreated] at *
      tauto

/-- Hit path of the secure importer: an existing `repository:tag` image is
answered from cache. -/
theorem import_hit_aux (env : ImportEnv) (repository tagpre url digest : String)
    (hhit : ∃ img ∈ env.images,
      imageHasTag repository (importCacheTag env tagpre url digest) img = true) :
    (import_base_image env repository tagpre url digest).downloaded = false ∧
    (import_base_image env repository tagpre url digest).handedToImport = none ∧
    (∃ img ∈ env.images,
      imageHasTag repository (importCacheTag env tagpre url digest) img = true ∧
      (import_base_image env repository tagpre url digest).result = .cached img.Id) := by
  obtain ⟨img0, hmem0, htag0⟩ := hhit
  have hne : (get_sorted_images env.images).find?
      (imageHasTag repository (importCacheTag env tagpre url digest)) ≠ none := by
    intro hnone
    rw [List.find?_eq_none] at hnone
    exact absurd htag0
      (by simpa using hnone img0 ((mem_get_sorted_images img0 env.images).2 hmem0))
  cases hf : (get_sorted_images env.images).find?
      (imageHasTag repository (importCacheTag env tagpre url digest)) with
  | none => exact absurd hf hne
  | some img =>
      have hmem : img ∈ env.images :=
        (mem_get_sorted_images img env.images).1 (List.mem_of_find?_eq_some hf)
      have htag : imageHasTag repository (importCacheTag env tagpre url digest) img = true :=
        List.find?_some hf
      refine ⟨?_, ?_, img, hmem, htag, ?_⟩ <;>
        simp [import_base_image, hf]

/-- Miss path of the secure importer: download, verify, then import. -/
theorem import_miss_aux (env : ImportEnv) (repository tagpre url digest : String)
    (hmiss : ∀ img ∈ env.images,
      imageHasTag repository (importCacheTag env tagpre url digest) img = false) :
    (import_base_image env repository tagpre url digest).downloaded = true ∧
    (env.sha256Bytes (env.download url) ≠ digest →
      (import_base_image env repository tagpre url digest).result =
        .integrityError url (env.sha256Bytes (env.download url)) digest ∧
      (import_base_image env repository tagpre url digest).handedToImport = none) ∧
    (env.sha256Bytes (env.download url) = digest →
      (import_base_image env repository tagpre url digest).handedToImport =
        some (if pyEndsWith url ".xz" then env.lzmaDecompress (env.download url)
          else env.download url) ∧
      (import_base_image env repository tagpre url digest).result =
        .imported (env.importImage
          (if pyEndsWith url ".xz" then env.lzmaDecompress (env.download url)
            else env.download url)
          repository (importCacheTag env tagpre url digest))) := by
  have hf : (get_sorted_images env.images).find?
      (imageHasTag repository (importCacheTag env tagpre url digest)) = none := by
    rw [List.find?_eq_none]
    intro img hmem
    simp [hmiss img ((mem_get_sorted_images img env.images).1 hmem)]
  by_cases hd : env.sha256Bytes (env.download url) = digest <;>
    simp [import_base_image, hf, hd]

/-- C1: behaviour of the secure image importer.  If an image already tagged
`repository:(tagpre + '-' + sha256(url + digest))` exists, its id is
returned with no download and nothing handed to the import pipeline.
Otherwise the url is downloaded; if the computed SHA-256 of the downloaded
bytes differs from the expected digest, an IntegrityError is raised and no
content reaches the import pipeline; only on a digest match is the content
(xz-decompressed locally when the url ends in `.xz`) imported and tagged. -/
theorem c1_secure_import (env : ImportEnv) (repository tagpre url digest : String) :
    ((∃ img ∈ env.images,
        imageHasTag repository (importCacheTag env tagpre url digest) img = true) →
      (import_base_image env repository tagpre url digest).downloaded = false ∧
      (import_base_image env repository tagpre url digest).handedToImport = none ∧
      (∃ img ∈ env.images,
        imageHasTag repository (importCacheTag env tagpre url digest) img = true ∧
        (import_base_image env repository tagpre url digest).result = .cached img.Id)) ∧
    ((∀ img ∈ env.images,
        imageHasTag repository (importCacheTag env tagpre url digest) img = false) →
      (import_base_image env repository tagpre url digest).downloaded = true ∧
      (env.sha256Bytes (env.download url) ≠ digest →
        (import_base_image env repository tagpre url digest).result =
          .integrityError url (env.sha256Bytes (env.download url)) digest ∧
        (import_base_image env repository tagpre url digest).handedToImport = none) ∧
      (env.sha256Bytes (env.download url) = digest →
        (import_base_image env repository tagpre url digest).handedToImport =
          some (if pyEndsWith url ".xz" then env.lzmaDecompress (env.download url)
            else env.download url) ∧
        (import_base_image env repository tagpre url digest).result =
          .imported (env.importImage
            (if pyEndsWith url ".xz" then env.lzmaDecompress (env.download url)
              else env.download url)
            repository (importCacheTag env tagpre url digest)))) :=
  ⟨import_hit_aux env repository tagpre url digest,
    import_miss_aux env repository tagpre url digest⟩

/-- Witness for C1 at concrete inputs: an environment with no images whose
downloads hash to `"B"`.  Requesting digest `"B"` imports; requesting
digest `"d"` raises the integrity error with nothing imported; and a
one-image environment holding the computed tag answers from cache. -/
theorem c1_secure_import_witness :
    (import_base_image importEnvNoCache "repo" "p" "u" "B").handedToImport = some [1, 2] ∧
    (import_base_image importEnvNoCache "repo" "p" "u" "d").result =
      .integrityError "u" "B" "d" ∧
    (import_base_image importEnvNoCache "repo" "p" "u" "d").handedToImport = none ∧
    (import_base_image
        { importEnvNoCache with images := [⟨"iid", ["repo:p-H"], 0⟩] }
        "repo" "p" "u" "d").downloaded = false :=
  ⟨(((c1_secure_import importEnvNoCache "repo" "p" "u" "B").2
      (by intro img h; simp [importEnvNoCache] at h)).2.2 (by decide)).1,
    (((c1_secure_import importEnvNoCache "repo" "p" "u" "d").2
      (by intro img h; simp [importEnvNoCache] at h)).2.1 (by decide)).1,
    (((c1_secure_import importEnvNoCache "repo" "p" "u" "d").2
      (by intro img h; simp [importEnvNoCache] at h)).2.1 (by decide)).2,
    ((c1_secure_import { importEnvNoCache with images := [⟨"iid", ["repo:p-H"], 0⟩] }
      "repo" "p" "u" "d").1 ⟨⟨"iid", ["repo:p-H"], 0⟩, by simp, by decide⟩).1⟩

/-! ### C6: pruning lemmas -/

theorem keys_dictInsert (td : List (String × String)) (k v : String) :
    (dictInsert td k v).map Prod.fst =
      if k ∈ td.map Prod.fst then td.map Prod.fst else td.map Prod.fst ++ [k] := by
  unfold dictInsert
  by_cases h : td.any (fun p => p.1 == k)
  · have hk : k ∈ td.map Prod.fst := by
      rcases List.any_eq_true.1 h with ⟨p, hp, he⟩
      exact List.mem_map.2 ⟨p, hp, beq_iff_eq.1 he⟩
    rw [if_pos h, if_pos hk]
    have hmap : ∀ l : List (String × String),
        (l.map (fun p => if p.1 == k then (k, v) else p)).map Prod.fst = l.map Prod.fst := by
      intro l
      induction l with
      | nil => rfl
      | cons q qs ih =>
          have hfst : ((if (q.1 == k) = true then (k, v) else q) : String × String).1 = q.1 := by
            by_cases hq : q.1 = k <;> simp [hq]
          simp only [List.map_cons, hfst, ih]
    exact hmap td
  · have hk : k ∉ td.map Prod.fst := by
      intro hmem
      rcases List.mem_map.1 hmem with ⟨p, hp, he⟩
      exact h (List.any_eq_true.2 ⟨p, hp, beq_iff_eq.2 he⟩)
    rw [if_neg h, if_neg hk]
    simp

theorem nodup_keys_dictInsert (td : List (String × String)) (k v : String)
    (h : (td.map Prod.fst).Nodup) : ((dictInsert td k v).map Prod.fst).Nodup := by
  rw [keys_dictInsert]
  by_cases hk : k ∈ td.map Prod.fst
  · simpa [hk] using h
  · simpa [hk, List.nodup_append] using h

/-- Which ids end up as keys of `to_delete`: exactly the ids of listed
images that are not running, not in the ignore set, and carry a relevant
repo tag. -/
theorem mem_keys_prune_foldl (running : List String) (st : PruneStore) (id : String)
    (l : List DImage) (td0 : List (String × String)) :
    id ∈ ((l.foldl (pruneStep running st) td0).map Prod.fst) ↔
      id ∈ td0.map Prod.fst ∨
        ∃ i ∈ l, i.Id = id ∧ i.Id ∉ running ∧ some i.Id ∉ ignore_images st ∧
          (imageRelevantRepo i).isSome := by
  induction l generalizing td0 with
  | nil => simp
  | cons x xs ih =>
      rw [List.foldl_cons, ih]
      have hstep : (pruneStep running st td0 x).map Prod.fst =
          if x.Id ∉ running ∧ some x.Id ∉ ignore_images st ∧ (imageRelevantRepo x).isSome
          then (if x.Id ∈ td0.map Prod.fst then td0.map Prod.fst
            else td0.map Prod.fst ++ [x.Id])
          else td0.map Prod.fst := by
        unfold pruneStep
        by_cases h1 : x.Id ∈ running
        · simp [h1]
        · by_cases h2 : some x.Id ∈ ignore_images st
          · simp [h1, h2]
          · cases hr : imageRelevantRepo x with
            | none => simp [h1, h2, hr]
            | some repo => simp [h1, h2, hr, keys_dictInsert]
      rw [hstep]
      by_cases hx : x.Id ∉ running ∧ some x.Id ∉ ignore_images st ∧
          (imageRelevantRepo x).isSome
      · rw [if_pos hx]
        by_cases hin : x.Id ∈ td0.map Prod.fst
        · rw [if_pos hin]
          constructor
          · rintro (h | h)
            · exact Or.inl h
            · exact Or.inr ⟨h.choose, by
                rcases h.choose_spec with ⟨hm, hrest⟩
                exact ⟨List.mem_cons_of_mem x hm, hrest⟩⟩
          · rintro (h | ⟨i, hm, hid, hrest⟩)
            · exact Or.inl h
            · rcases List.mem_cons.1 hm with rfl | hm2
              · exact Or.inl (hid ▸ hin)
              · exact Or.inr ⟨i, hm2, hid, hrest⟩
        · rw [if_neg hin]
          simp only [List.mem_append, List.mem_singleton]
          constructor
          · rintro ((h | rfl) | h)
            · exact Or.inl h
            · exact Or.inr ⟨x, List.mem_cons_self x xs, rfl, hx⟩
            · rcases h with ⟨i, hm, hrest⟩
              exact Or.inr ⟨i, List.mem_cons_of_mem x hm, hrest⟩
          · rintro (h | ⟨i, hm, hid, hrest⟩)
            · exact Or.inl (Or.inl h)
            · rcases List.mem_cons.1 hm with rfl | hm2
              · exact Or.inl (Or.inr hid.symm)
              · exact Or.inr ⟨i, hm2, hid, hrest⟩
      · rw [if_neg hx]
        constructor
        · rintro (h | ⟨i, hm, hid, hrest⟩)
          · exact Or.inl h
          · exact Or.inr ⟨i, List.mem_cons_of_mem x hm, hid, hrest⟩
        · rintro (h | ⟨i, hm, hid, hrest⟩)
          · exact Or.inl h
          · rcases List.mem_cons.1 hm with rfl | hm2
            · exact absurd (hid ▸ hrest) hx
            · exact Or.inr ⟨i, hm2, hid, hrest⟩

theorem nodup_keys_prune_foldl (running : List String) (st : PruneStore)
    (l : List DImage) (td0 : List (String × String))
    (h : (td0.map Prod.fst).Nodup) :
    ((l.foldl (pruneStep running st) td0).map Prod.fst).Nodup := by
  induction l generalizing td0 with
  | nil => exact h
  | cons x xs ih =>
      refine ih _ ?_
      unfold pruneStep
      by_cases h1 : x.Id ∈ running
      · simpa [h1] using h
      · by_cases h2 : some x.Id ∈ ignore_images st
        · simpa [h1, h2] using h
        · cases hr : imageRelevantRepo x with
          | none => simpa [h1, h2, hr] using h
          | some repo =>
              simpa [h1, h2, hr] using nodup_keys_dictInsert td0 x.Id repo h

/-- C6: the claim protects every image recorded as a `last-<role>-id` in
the state store; but the ignore set of `prune_images` omits
`last-rbweb-bootstrap-id`.  Concretely: a non-running image `I` recorded as
`last-rbweb-bootstrap-id` and tagged `rbweb:x` is submitted for deletion,
and the store's images cache entry pointing at it is dropped. -/
theorem c6_counterexample :
    pruneStoreBootstrapOnly.last_rbweb_bootstrap_id = some "I" ∧
    (prune_images [⟨"I", ["rbweb:x"], 0⟩] [] pruneStoreBootstrapOnly).1 =
      [("I", "rbweb")] ∧
    (prune_images [⟨"I", ["rbweb:x"], 0⟩] [] pruneStoreBootstrapOnly).2.images = [] := by
  refine ⟨rfl, ?_, ?_⟩ <;> decide

/-- C6 (amended): `prune_images` never deletes an image backing a running
container nor one recorded in its eight-element ignore set (the
`last-*-id` fields for hgrb, pulse, rbweb, hgmaster, hgweb, ldap, vct and
treestatus — `last-rbweb-bootstrap-id` is *not* protected); every other
listed image carrying a tag whose repository is in the fixed relevant-role
set is submitted for deletion, each id at most once, and afterwards the
store's images mapping contains no entry pointing at a deleted image id. -/
theorem c6_prune_images (images : List DImage) (running : List String) (st : PruneStore) :
    (∀ id, id ∈ (prune_images images running st).1.map Prod.fst ↔
      ∃ i ∈ images, i.Id = id ∧ i.Id ∉ running ∧ some i.Id ∉ ignore_images st ∧
        (imageRelevantRepo i).isSome) ∧
    ((prune_images images running st).1.map Prod.fst).Nodup ∧
    (∀ kv ∈ (prune_images images running st).2.images,
      kv.2 ∉ (prune_images images running st).1.map Prod.fst) := by
  refine ⟨?_, ?_, ?_⟩
  · intro id
    simpa using mem_keys_prune_foldl running st id images []
  · exact nodup_keys_prune_foldl running st images [] (by simp)
  · intro kv hkv hmem
    have hf := (List.mem_filter.1 hkv).2
    rcases List.mem_map.1 hmem with ⟨p, hp, he⟩
    have : (prune_to_delete images running st).any (fun p => p.1 == kv.2) = true :=
      List.any_eq_true.2 ⟨p, hp, beq_iff_eq.2 he⟩
    rw [this] at hf
    exact absurd hf (by simp)

/-- Witness for C6 at a concrete input: an unprotected, non-running image
tagged `hgweb:t` is submitted for deletion. -/
theorem c6_prune_images_witness :
    "X" ∈ (prune_images [⟨"X", ["hgweb:t"], 0⟩] [] pruneStoreEmpty).1.map Prod.fst :=
  ((c6_prune_images [⟨"X", ["hgweb:t"], 0⟩] [] pruneStoreEmpty).1 "X").2
    ⟨⟨"X", ["hgweb:t"], 0⟩, by simp, rfl, by decide, by decide, by decide⟩

/-- C7: the claim says the durable state rewrite is atomic — a partial
write is never observable and the previous document remains valid on a
crash mid-write.  Concretely, rewriting previous document `[1, 2]` with new
document `[3, 4]` exposes an observable intermediate state (the truncated
or half-written file) that is neither the old nor the new document. -/
theorem c7_counterexample :
    ¬ (∀ c ∈ save_state_observables [3, 4], c = [1, 2] ∨ c = [3, 4]) := by
  decide

/-- C7 (amended): `save_state` does rewrite the full document wholesale —
the final observable state is the complete new document — but the rewrite
is not atomic: it truncates the state file in place and writes
sequentially, so the crash-observable states are exactly the prefixes of
the new document, beginning with the empty file; the previous document
does not survive a crash during the write. -/
theorem c7_save_state_not_atomic (newDoc : List Nat) :
    (∀ c, c ∈ save_state_observables newDoc ↔
      ∃ k, k ≤ newDoc.length ∧ newDoc.take k = c) ∧
    (save_state_observables newDoc).head? = some [] ∧
    (save_state_observables newDoc).getLast? = some newDoc := by
  refine ⟨?_, ?_, ?_⟩
  · intro c
    simp [save_state_observables, List.mem_map, List.mem_range, Nat.lt_succ_iff]
  · rw [save_state_observables, List.range_succ_eq_map]
    simp
  · rw [save_state_observables, List.range_succ, List.map_append]
    simp

/-- Witness for C7 at a concrete input: the whole document is the final
observable state. -/
theorem c7_save_state_not_atomic_witness :
    (save_state_observables [7]).getLast? = some [7] :=
  (c7_save_state_not_atomic [7]).2.2

/-- C8 (code bug): the claim — matching the evident intent of the dead
`added` set in the source — says additions are deduplicated by absolute
path, no file entering the archive twice.  But `added` is consulted and
never populated, so the same version-controlled file `a`, included by two
directives, is added to the archive twice (and likewise within a single
subtree directive overlapping another directive). -/
theorem c8_duplicate_inclusion :
    resolve_inclusions ["a"] (fun _ => true) ["a", "a"] =
      .ok [("ROOT/a", "extra/vct/a"), ("ROOT/a", "extra/vct/a")] ∧
    (match resolve_inclusions ["a"] (fun _ => true) ["a", "a"] with
      | .ok entries => entries.countP (fun e => e.1 == "ROOT/a")
      | .error _ => 0) = 2 := by
  exact ⟨rfl, rfl⟩

end VCT
